import Mathlib

/-!
# Content generation endpoint: response parsing and request handling

A shallow embedding of `src/backend/api/generate-content.js`, the handler of
`POST /api/generate-content`.  JavaScript strings are modelled as lists of
characters; every delimiter and every white-space character the handler looks
at lies in the Basic Multilingual Plane, so `split` and `trim` act on code
points exactly as they act on UTF-16 code units.
-/

namespace GenerateContent

/-- A JavaScript string, as the list of its characters. -/
abbrev Str := List Char

/-! ## Built-in string operations used by the handler -/

/-- The line feed character, one half of the separator of `response.split('\n\n')`. -/
def lf : Char := Char.ofNat 10

/-- The character `#`, the separator of `hashtagsStr.split('#')`. -/
def hash : Char := Char.ofNat 35

/-- The space character U+0020. -/
def space : Char := Char.ofNat 32

/-- The code points `String.prototype.trim` strips: ECMAScript WhiteSpace
(TAB, VT, FF, SP, NBSP, ZWNBSP and the Unicode category Zs) and LineTerminator
(LF, CR, LS, PS). -/
def isJsSpace (c : Char) : Bool :=
  let n := c.toNat
  n == 0x09 || n == 0x0A || n == 0x0B || n == 0x0C || n == 0x0D || n == 0x20 ||
  n == 0xA0 || n == 0x1680 || (0x2000 ≤ n && n ≤ 0x200A) || n == 0x2028 ||
  n == 0x2029 || n == 0x202F || n == 0x205F || n == 0x3000 || n == 0xFEFF

/-- The method `String.prototype.trim`: white space removed at both ends. -/
def trim (s : Str) : Str :=
  ((s.dropWhile isJsSpace).reverse.dropWhile isJsSpace).reverse

/-- Prepends a character to the first piece of a split. -/
def consHead (c : Char) : List Str → List Str
  | [] => [[c]]
  | p :: ps => (c :: p) :: ps

/-- The call `s.split(sep)` for a one-character separator `a`: the pieces
between the occurrences of `a`, in order; the empty string gives one empty
piece. -/
def split1 (a : Char) : Str → List Str
  | [] => [[]]
  | c :: rest => if c = a then [] :: split1 a rest else consHead c (split1 a rest)

/-- The call `s.split(sep)` for a two-character separator `a b`: occurrences
are found from the left and do not overlap; the empty string gives one empty
piece. -/
def split2 (a b : Char) : Str → List Str
  | [] => [[]]
  | [c] => [[c]]
  | c :: d :: rest =>
    if c = a ∧ d = b then [] :: split2 a b rest
    else consHead c (split2 a b (d :: rest))

/-- The paragraphs of a provider response: `response.split('\n\n')`. -/
def paragraphs (response : Str) : List Str := split2 lf lf response

/-! ## Request, provider and response -/

/-- A field of the parsed JSON request body, as the template literal of the
prompt sees it: missing (`undefined`), `null`, a string, or any other JSON
value together with the result of its string conversion (`none` when the
conversion throws, as for an object whose `toString` is not callable). -/
inductive JsValue where
  | undefined
  | null
  | str (s : Str)
  | other (rendered : Option Str)

/-- The fault caught by the `catch` block of the handler. -/
inductive JsError where
  | typeError
  | providerError (detail : Str)
  deriving DecidableEq

/-- The five properties destructured from `req.body`. -/
structure RequestBody where
  brandName : JsValue
  brandDescription : JsValue
  platform : JsValue
  contentType : JsValue
  tone : JsValue

/-- One element of the `messages` array passed to the provider. -/
structure ChatMessage where
  role : Str
  content : Str
  deriving DecidableEq

/-- The argument of `openai.chat.completions.create`. -/
structure ChatRequest where
  messages : List ChatMessage
  model : Str
  deriving DecidableEq

/-- One element of `completion.choices`; `content` is `none` for a `null`
message content. -/
structure Choice where
  content : Option Str

/-- What awaiting the provider call gives: a rejection, or a completion with
its list of choices. -/
inductive ProviderOutcome where
  | rejects (detail : Str)
  | completion (choices : List Choice)

/-- The external text-generation provider. -/
abbrev Provider := ChatRequest → ProviderOutcome

/-- The object passed to `res.json` on success. -/
structure ContentResult where
  caption : Str
  hashtags : List Str
  imagePrompt : Str
  deriving DecidableEq

/-- The JSON body of the response. -/
inductive ResponseBody where
  | content (result : ContentResult)
  | error (message : Str)
  deriving DecidableEq

/-- The HTTP response sent by the handler. -/
structure HttpResponse where
  status : Nat
  body : ResponseBody
  deriving DecidableEq

/-- One run of the handler: the provider calls it made, in order, what it wrote
with `console.error`, and the response it sent. -/
structure Run where
  calls : List ChatRequest
  logged : Option JsError
  response : HttpResponse

/-! ## The handler -/

/-- String conversion of a substitution of the template literal. -/
def JsValue.render : JsValue → Except JsError Str
  | .undefined => .ok "undefined".toList
  | .null => .ok "null".toList
  | .str s => .ok s
  | .other (some s) => .ok s
  | .other none => .error .typeError

/-- The template literal of lines 20-21, over the converted substitutions. -/
def promptText (contentType brandName brandDescription platform tone : Str) : Str :=
  "Create a ".toList ++ contentType ++ " for ".toList ++ brandName ++ " (".toList ++
    brandDescription ++ ") for ".toList ++ platform ++ " with a ".toList ++ tone ++
    " tone. \n    Include a compelling caption and relevant hashtags. Also provide a detailed image prompt for DALL-E.".toList

/-- The constant `prompt`: the substitutions are converted left to right. -/
def prompt (body : RequestBody) : Except JsError Str := do
  let contentType ← body.contentType.render
  let brandName ← body.brandName.render
  let brandDescription ← body.brandDescription.render
  let platform ← body.platform.render
  let tone ← body.tone.render
  pure (promptText contentType brandName brandDescription platform tone)

/-- The content of the system message. -/
def systemContent : Str :=
  "You are a professional social media content creator specializing in brand marketing. Create engaging, platform-specific content that aligns with brand identity.".toList

/-- The argument of the provider call of lines 23-35. -/
def chatRequest (userPrompt : Str) : ChatRequest where
  messages := [⟨"system".toList, systemContent⟩, ⟨"user".toList, userPrompt⟩]
  model := "gpt-4-turbo-preview".toList

/-- The expression `completion.choices[0].message.content` of line 37, with the
`split` call on it still to come: a rejected call, an absent first choice and
a `null` content all end in the `catch` block. -/
def responseText : ProviderOutcome → Except JsError Str
  | .rejects detail => .error (.providerError detail)
  | .completion [] => .error .typeError
  | .completion (⟨none⟩ :: _) => .error .typeError
  | .completion (⟨some content⟩ :: _) => .ok content

/-- The `filter` and `map` calls of lines 42-43, on the fragments of the split:
keep the fragments whose trimmed text is non-empty (a non-empty string is
truthy), prefix each trimmed fragment with `#`. -/
def tagsOf (fragments : List Str) : List Str :=
  (fragments.filter (fun tag => !(trim tag).isEmpty)).map (fun tag => hash :: trim tag)

/-- The constant `hashtags` of lines 40-43: `hashtagsStr` split on `#`, then
filtered and mapped. -/
def hashtags (hashtagsStr : Str) : List Str :=
  tagsOf (split1 hash hashtagsStr)

/-- Lines 38-49: the array destructuring leaves `undefined` where a paragraph
is missing; `hashtagsStr.split` throws first, then `caption.trim()`, then
`imagePrompt.trim()`. -/
def parseResponse (response : Str) : Except JsError ContentResult :=
  let parts := paragraphs response
  match parts[1]? with
  | none => .error .typeError
  | some hashtagsStr =>
    let tags := hashtags hashtagsStr
    match parts[0]? with
    | none => .error .typeError
    | some caption =>
      match parts[2]? with
      | none => .error .typeError
      | some imagePrompt =>
        .ok { caption := trim caption, hashtags := tags, imagePrompt := trim imagePrompt }

/-- The message of the failure response. -/
def failureMessage : Str := "Failed to generate content".toList

/-- The end of the `try` block and the `catch` block: `res.json` on success,
`console.error` and `res.status(500).json` on any fault. -/
def respond (calls : List ChatRequest) : Except JsError ContentResult → Run
  | .ok result => ⟨calls, none, ⟨200, .content result⟩⟩
  | .error e => ⟨calls, some e, ⟨500, .error failureMessage⟩⟩

/-- The handler of `POST /api/generate-content`, as a function from what it
is given to what it leaves behind.  `body` is `none` when `req.body` is
`undefined`, where the destructuring of line 18 throws. -/
def generateContent (provider : Provider) (body : Option RequestBody) : Run :=
  match body with
  | none => respond [] (.error .typeError)
  | some fields =>
    match prompt fields with
    | .error e => respond [] (.error e)
    | .ok userPrompt =>
      let request := chatRequest userPrompt
      respond [request] (responseText (provider request) >>= parseResponse)

/-! ## The endpoint as a program of events

The same handler, statement by statement: what it calls, logs and sends are
events recorded as the program runs, and a fault that no `catch` block takes
is kept as escaped.  `generateContent` above is its summary. -/

/-- What can be observed of one request to the endpoint. -/
inductive Event where
  | refused (status : Nat)
  | called (request : ChatRequest)
  | logged (e : JsError)
  | sent (response : HttpResponse)
  deriving DecidableEq

/-- A block of statements of the handler: it ends normally, throws, awaits
`openai.chat.completions.create` and goes on with what the call settled to,
writes with `console.error`, or sends with `res.json`. -/
inductive Prog (α : Type) where
  | ret (value : α)
  | throw (e : JsError)
  | create (request : ChatRequest) (resume : ProviderOutcome → Prog α)
  | log (e : JsError) (next : Prog α)
  | send (response : HttpResponse) (next : Prog α)

/-- The statement `try block catch (error) handler`: a fault thrown in the
block, at whatever statement, continues in the handler. -/
def Prog.tryCatch {α : Type} : Prog α → (JsError → Prog α) → Prog α
  | .ret value, _ => .ret value
  | .throw e, handler => handler e
  | .create request resume, handler =>
    .create request (fun outcome => (resume outcome).tryCatch handler)
  | .log e next, handler => .log e (next.tryCatch handler)
  | .send response next, handler => .send response (next.tryCatch handler)

/-- The events of one request, in order, and the fault that escaped, if any. -/
structure Trace where
  events : List Event
  escaped : Option JsError

/-- A recorded event put in front of a trace. -/
def Trace.after (event : Event) (rest : Trace) : Trace :=
  ⟨event :: rest.events, rest.escaped⟩

/-- Runs a block against a provider, recording one event for each call, log
line and response as it happens. -/
def Prog.exec {α : Type} (provider : Provider) : Prog α → Trace
  | .ret _ => ⟨[], none⟩
  | .throw e => ⟨[], some e⟩
  | .create request resume =>
    Trace.after (.called request) ((resume (provider request)).exec provider)
  | .log e next => Trace.after (.logged e) (next.exec provider)
  | .send response next => Trace.after (.sent response) (next.exec provider)

/-- The calls of `openai.chat.completions.create` recorded in a trace. -/
def Trace.calls (trace : Trace) : List ChatRequest :=
  trace.events.filterMap (fun event =>
    match event with
    | .called request => some request
    | _ => none)

/-- The responses the handler sent, as recorded in a trace. -/
def Trace.responses (trace : Trace) : List HttpResponse :=
  trace.events.filterMap (fun event =>
    match event with
    | .sent response => some response
    | _ => none)

/-- The `try` block, lines 18-49. -/
def tryBlock (body : Option RequestBody) : Prog Unit :=
  match body with
  | none => .throw .typeError
  | some fields =>
    match prompt fields with
    | .error e => .throw e
    | .ok userPrompt =>
      .create (chatRequest userPrompt) (fun completion =>
        match responseText completion >>= parseResponse with
        | .error e => .throw e
        | .ok result => .send ⟨200, .content result⟩ (.ret ()))

/-- The `catch` block, lines 51-52. -/
def catchBlock (error : JsError) : Prog Unit :=
  .log error (.send ⟨500, .error failureMessage⟩ (.ret ()))

/-- The body of the handler, lines 17-53. -/
def handler (body : Option RequestBody) : Prog Unit :=
  (tryBlock body).tryCatch catchBlock

/-- A request as `express.json()` of line 10 leaves it: a body that is not
valid JSON is `malformed`; any other request goes on to the handler with its
`req.body`. -/
inductive Request where
  | malformed
  | parsed (body : Option RequestBody)

/-- The endpoint `POST /api/generate-content` behind the middleware of lines
9-10.  For a malformed body `express.json()` passes an error on, Express
answers 400 by itself and the handler is not run. -/
def endpoint (provider : Provider) : Request → Trace
  | .malformed => ⟨[.refused 400], none⟩
  | .parsed body => (handler body).exec provider

/-- The client built at lines 12-14 by `new OpenAI` with the API key alone.
It belongs to a library outside this source, so it is taken as it behaves: for
one call of `create` it sends some number of requests to the provider, since
it may repeat a failed one, and settles to an outcome. -/
structure Client where
  requests : ChatRequest → Nat
  settle : Provider

/-- The requests sent to the provider while the endpoint serves one request. -/
def requestsSent (client : Client) (request : Request) : Nat :=
  ((endpoint client.settle request).calls.map client.requests).sum

/-! ## Vocabulary of the properties -/

/-- The string has no white space at either end. -/
def edgeFree (s : Str) : Bool :=
  !(s.head?.any isJsSpace) && !(s.getLast?.any isJsSpace)

/-- The string contains a blank line, the separator `"\n\n"`. -/
def hasBlankLine : Str → Bool
  | [] => false
  | [_] => false
  | c :: d :: rest => (c == lf && d == lf) || hasBlankLine (d :: rest)

/-- A provider that answers every call with one choice carrying `text`. -/
def answering (text : Str) : Provider :=
  fun _ => .completion [⟨some text⟩]

/-- A request body whose five fields are strings. -/
def textBody (brandName brandDescription platform contentType tone : Str) : RequestBody :=
  ⟨.str brandName, .str brandDescription, .str platform, .str contentType, .str tone⟩

/-- The hashtag paragraph `"#t1 #t2 ... #tn"` of a formatted response. -/
def joinTags : List Str → Str
  | [] => []
  | [t] => hash :: t
  | t :: ts => hash :: t ++ space :: joinTags ts

/-- The hashtag paragraph `w0 ++ "#t1" ++ w1 ++ ... ++ "#tn" ++ wn`, given the
leading separator and the tokens, each paired with the separator after it. -/
def interleave (w0 : Str) : List (Str × Str) → Str
  | [] => w0
  | item :: items => w0 ++ hash :: (item.1 ++ interleave item.2 items)

/-- The tokens of `joinTags`, each paired with the separator that follows it:
one space, and nothing after the last token. -/
def spaced : List Str → List (Str × Str)
  | [] => []
  | [t] => [(t, [])]
  | t :: ts => (t, [space]) :: spaced ts

/-- The provider answers the request built from `body` with the text `text`. -/
def Returns (provider : Provider) (body : RequestBody) (text : Str) : Prop :=
  ∃ userPrompt, prompt body = .ok userPrompt ∧
    responseText (provider (chatRequest userPrompt)) = .ok text

/-- A request field that is either missing or a string. -/
def optionalField : Option Str → JsValue
  | none => .undefined
  | some s => .str s

/-- The pieces with `pre` put in front of the first one. -/
def prependHead (pre : Str) : List Str → List Str
  | [] => [pre]
  | p :: ps => (pre ++ p) :: ps

/-- The pieces with `post` put after the last one. -/
def appendLast (post : Str) : List Str → List Str
  | [] => [post]
  | [p] => [p ++ post]
  | p :: ps => p :: appendLast post ps

/-! ## White space and `trim` -/

theorem isJsSpace_lf : isJsSpace lf = true := by decide

theorem isJsSpace_space : isJsSpace space = true := by decide

theorem isJsSpace_hash : isJsSpace hash = false := by decide

theorem trim_eq (s : Str) :
    trim s = (s.dropWhile isJsSpace).rdropWhile isJsSpace := rfl

theorem rdropWhile_append_spaces (x b : Str) (hb : ∀ c ∈ b, isJsSpace c = true) :
    (x ++ b).rdropWhile isJsSpace = x.rdropWhile isJsSpace := by
  unfold List.rdropWhile
  rw [List.reverse_append, List.dropWhile_append_of_pos]
  intro c hc
  exact hb c (List.mem_reverse.mp hc)

/-- Surrounding white space does not change what `trim` returns. -/
theorem trim_pad (a s b : Str) (ha : ∀ c ∈ a, isJsSpace c = true)
    (hb : ∀ c ∈ b, isJsSpace c = true) : trim (a ++ (s ++ b)) = trim s := by
  rw [trim_eq, trim_eq, List.dropWhile_append_of_pos ha, List.dropWhile_append]
  split
  · next h =>
    have hnil : s.dropWhile isJsSpace = [] := List.isEmpty_iff.mp h
    have hbnil : b.dropWhile isJsSpace = [] := List.dropWhile_eq_nil_iff.mpr (by simpa using hb)
    rw [hnil, hbnil]
  · exact rdropWhile_append_spaces _ _ hb

theorem trim_pad_left (a s : Str) (ha : ∀ c ∈ a, isJsSpace c = true) :
    trim (a ++ s) = trim s := by
  have h := trim_pad a s [] ha (by simp)
  simpa using h

theorem trim_pad_right (s b : Str) (hb : ∀ c ∈ b, isJsSpace c = true) :
    trim (s ++ b) = trim s := by
  have h := trim_pad [] s b (by simp) hb
  simpa using h

/-- The text `trim` returns has no white space at either end. -/
theorem edgeFree_trim (s : Str) : edgeFree (trim s) = true := by
  cases h : trim s with
  | nil => rfl
  | cons x xs =>
    have hne : (s.dropWhile isJsSpace).rdropWhile isJsSpace ≠ [] := by
      rw [← trim_eq, h]; simp
    have hlast := List.rdropWhile_last_not isJsSpace _ hne
    have hpre : trim s <+: s.dropWhile isJsSpace := by
      rw [trim_eq]; exact List.rdropWhile_prefix isJsSpace _
    obtain ⟨t, ht⟩ := hpre
    have hhead := List.head?_dropWhile_not isJsSpace s
    rw [← ht, h] at hhead
    simp only [List.cons_append, List.head?_cons] at hhead
    have hl : (x :: xs).getLast? = some ((x :: xs).getLast (by simp)) :=
      List.getLast?_eq_getLast _ _
    have hx : isJsSpace ((x :: xs).getLast (by simp)) = false := by
      have e : (x :: xs).getLast (by simp)
          = ((s.dropWhile isJsSpace).rdropWhile isJsSpace).getLast hne := by
        congr 1
        rw [← trim_eq, h]
      rw [e]; simpa using hlast
    unfold edgeFree
    rw [hl]
    simp [hhead, hx]

/-- A text without white space at its ends is left as it is by `trim`. -/
theorem trim_of_edgeFree (s : Str) (h : edgeFree s = true) : trim s = s := by
  cases s with
  | nil => rfl
  | cons x xs =>
    unfold edgeFree at h
    have hl : (x :: xs).getLast? = some ((x :: xs).getLast (by simp)) :=
      List.getLast?_eq_getLast _ _
    rw [hl] at h
    simp only [List.head?_cons, Option.any_some, Bool.and_eq_true, Bool.not_eq_true'] at h
    have h1 : (x :: xs).dropWhile isJsSpace = x :: xs := by
      rw [List.dropWhile_cons_of_neg]; simp [h.1]
    rw [trim_eq, h1, List.rdropWhile_eq_self_iff]
    intro hne
    simp [h.2]

/-- White space around a text without white space at its ends is trimmed away
exactly. -/
theorem trim_pad_edgeFree (a s b : Str) (hs : edgeFree s = true)
    (ha : ∀ c ∈ a, isJsSpace c = true) (hb : ∀ c ∈ b, isJsSpace c = true) :
    trim (a ++ (s ++ b)) = s := by
  rw [trim_pad a s b ha hb, trim_of_edgeFree s hs]

theorem trim_eq_nil_iff (s : Str) : trim s = [] ↔ ∀ c ∈ s, isJsSpace c = true := by
  rw [trim_eq, List.rdropWhile_eq_nil_iff]
  constructor
  · intro h c hc
    by_contra hcn
    have hsplit := List.takeWhile_append_dropWhile isJsSpace s
    rw [← hsplit] at hc
    rcases List.mem_append.mp hc with hc1 | hc2
    · exact hcn (List.mem_takeWhile_imp hc1)
    · exact hcn (h c hc2)
  · intro h c hc
    exact h c ((List.dropWhile_sublist isJsSpace).subset hc)

theorem mem_trim {c : Char} {s : Str} (h : c ∈ trim s) : c ∈ s := by
  rw [trim_eq] at h
  exact (List.dropWhile_sublist isJsSpace).subset ((List.rdropWhile_prefix isJsSpace _).subset h)

/-! ## Splitting -/

theorem consHead_ne_nil (c : Char) (ps : List Str) : consHead c ps ≠ [] := by
  cases ps <;> simp [consHead]

theorem split1_ne_nil (a : Char) (s : Str) : split1 a s ≠ [] := by
  cases s with
  | nil => simp [split1]
  | cons c rest =>
    unfold split1
    split
    · simp
    · exact consHead_ne_nil _ _

/-- Up to its first occurrence the separator cuts off exactly one piece. -/
theorem split1_append_sep (a : Char) (x y : Str) (hx : a ∉ x) :
    split1 a (x ++ a :: y) = x :: split1 a y := by
  induction x with
  | nil => simp [split1]
  | cons c rest ih =>
    have hc : c ≠ a := fun h => hx (by simp [h])
    have hrest : a ∉ rest := fun h => hx (List.mem_cons_of_mem _ h)
    simp [split1, hc, ih hrest, consHead]

theorem split1_of_not_mem (a : Char) (x : Str) (hx : a ∉ x) : split1 a x = [x] := by
  induction x with
  | nil => simp [split1]
  | cons c rest ih =>
    have hc : c ≠ a := fun h => hx (by simp [h])
    have hrest : a ∉ rest := fun h => hx (List.mem_cons_of_mem _ h)
    simp [split1, hc, ih hrest, consHead]

/-- No piece of a split contains the separator. -/
theorem not_mem_of_mem_split1 (a : Char) (s p : Str) (hp : p ∈ split1 a s) : a ∉ p := by
  induction s generalizing p with
  | nil =>
    simp only [split1, List.mem_singleton] at hp
    simp [hp]
  | cons c rest ih =>
    unfold split1 at hp
    split at hp
    · rcases List.mem_cons.mp hp with h | h
      · simp [h]
      · exact ih p h
    · next hc =>
      cases hsp : split1 a rest with
      | nil => exact absurd hsp (split1_ne_nil a rest)
      | cons q qs =>
        rw [hsp] at hp ih
        simp only [consHead, List.mem_cons] at hp
        rcases hp with h | h
        · subst h
          intro hmem
          rcases List.mem_cons.mp hmem with h1 | h1
          · exact hc h1.symm
          · exact ih q (by simp) h1
        · exact ih p (by simp [h])

theorem split2_ne_nil (a b : Char) : ∀ s : Str, split2 a b s ≠ []
  | [] => by simp [split2]
  | [_] => by simp [split2]
  | c :: d :: rest => by
    unfold split2
    split
    · simp
    · exact consHead_ne_nil _ _

theorem getLast?_cons_cons (c d : Char) (rest : Str) :
    (c :: d :: rest).getLast? = (d :: rest).getLast? := by
  simp [List.getLast?_cons_cons]

/-- A text without a blank line that does not end in a line feed, followed by
a blank line, is cut off as the first paragraph. -/
theorem split2_first : ∀ (x y : Str), hasBlankLine x = false → x.getLast? ≠ some lf →
    split2 lf lf (x ++ lf :: lf :: y) = x :: split2 lf lf y
  | [], y, _, _ => by simp [split2]
  | [c], y, _, h2 => by
    have hc : c ≠ lf := by simpa using h2
    simp [split2, hc, consHead]
  | c :: d :: rest, y, h1, h2 => by
    simp only [hasBlankLine, Bool.or_eq_false_iff, Bool.and_eq_false_imp, beq_iff_eq] at h1
    have hcd : ¬ (c = lf ∧ d = lf) := by
      rintro ⟨hc, hd⟩
      have := h1.1 hc
      simp [hd] at this
    rw [getLast?_cons_cons] at h2
    have ih := split2_first (d :: rest) y h1.2 h2
    have e : (c :: d :: rest) ++ lf :: lf :: y = c :: d :: (rest ++ lf :: lf :: y) := rfl
    rw [e, split2, if_neg hcd]
    have e2 : d :: (rest ++ lf :: lf :: y) = (d :: rest) ++ lf :: lf :: y := rfl
    rw [e2, ih, consHead]

/-- A text without a blank line is a single paragraph. -/
theorem split2_single : ∀ (x : Str), hasBlankLine x = false → split2 lf lf x = [x]
  | [], _ => by simp [split2]
  | [c], _ => by simp [split2]
  | c :: d :: rest, h1 => by
    simp only [hasBlankLine, Bool.or_eq_false_iff, Bool.and_eq_false_imp, beq_iff_eq] at h1
    have hcd : ¬ (c = lf ∧ d = lf) := by
      rintro ⟨hc, hd⟩
      have := h1.1 hc
      simp [hd] at this
    rw [split2, if_neg hcd, split2_single (d :: rest) h1.2, consHead]

theorem hasBlankLine_of_not_mem : ∀ (x : Str), lf ∉ x → hasBlankLine x = false
  | [], _ => rfl
  | [_], _ => rfl
  | c :: d :: rest, h => by
    have hc : c ≠ lf := fun e => h (by simp [e])
    have hr : lf ∉ d :: rest := fun e => h (List.mem_cons_of_mem _ e)
    simp [hasBlankLine, hc, hasBlankLine_of_not_mem (d :: rest) hr]

/-- Two texts without a blank line join to a text without one, unless a line
feed ending the first meets a line feed starting the second. -/
theorem hasBlankLine_append : ∀ (x y : Str), hasBlankLine x = false →
    hasBlankLine y = false → ¬ (x.getLast? = some lf ∧ y.head? = some lf) →
    hasBlankLine (x ++ y) = false
  | [], y, _, hy, _ => by simpa using hy
  | [c], [], _, _, _ => rfl
  | [c], d :: rest, _, hy, hj => by
    have hcd : ¬ (c = lf ∧ d = lf) := by
      rintro ⟨hc, hd⟩
      exact hj (by simp [hc, hd])
    have e : [c] ++ d :: rest = c :: d :: rest := rfl
    rw [e, hasBlankLine, hy]
    simp only [Bool.or_false, Bool.and_eq_false_imp, beq_iff_eq]
    intro hc
    simpa using fun hd => hcd ⟨hc, hd⟩
  | c :: d :: rest, y, hx, hy, hj => by
    simp only [hasBlankLine, Bool.or_eq_false_iff] at hx
    rw [getLast?_cons_cons] at hj
    have ih := hasBlankLine_append (d :: rest) y hx.2 hy hj
    have e : (c :: d :: rest) ++ y = c :: d :: (rest ++ y) := rfl
    have e2 : d :: (rest ++ y) = (d :: rest) ++ y := rfl
    rw [e, hasBlankLine, e2, ih, hx.1]
    rfl

theorem getLast?_append_ne (x y : Str) (hx : x.getLast? ≠ some lf)
    (hy : y.getLast? ≠ some lf) : (x ++ y).getLast? ≠ some lf := by
  rw [List.getLast?_append]
  cases hyl : y.getLast? with
  | none => simpa using hx
  | some c =>
    rw [hyl] at hy
    simpa using hy

/-- Appending a blank line and more text to a response leaves every paragraph
but the last as it was; the last one is kept, or loses one closing line feed. -/
theorem split2_extend : ∀ (r s : Str), ∃ front x l rest,
    split2 lf lf r = front ++ [x] ∧
    split2 lf lf (r ++ lf :: lf :: s) = front ++ l :: rest ∧
    (l = x ∨ l ++ [lf] = x)
  | [], s => ⟨[], [], [], split2 lf lf s, by simp [split2], by simp [split2], Or.inl rfl⟩
  | [c], s => by
    by_cases hc : c = lf
    · subst hc
      exact ⟨[], [lf], [], split2 lf lf (lf :: s), by simp [split2], by simp [split2],
        Or.inr rfl⟩
    · exact ⟨[], [c], [c], split2 lf lf s, by simp [split2],
        by simp [split2, hc, consHead], Or.inl rfl⟩
  | c :: d :: rest, s => by
    have e : (c :: d :: rest) ++ lf :: lf :: s = c :: d :: (rest ++ lf :: lf :: s) := rfl
    by_cases hcd : c = lf ∧ d = lf
    · obtain ⟨front, x, l, rest1, h1, h2, h3⟩ := split2_extend rest s
      refine ⟨[] :: front, x, l, rest1, ?_, ?_, h3⟩
      · rw [split2, if_pos hcd, h1]; rfl
      · rw [e, split2, if_pos hcd, h2]; rfl
    · obtain ⟨front, x, l, rest1, h1, h2, h3⟩ := split2_extend (d :: rest) s
      have e2 : d :: (rest ++ lf :: lf :: s) = (d :: rest) ++ lf :: lf :: s := rfl
      cases front with
      | nil =>
        refine ⟨[], c :: x, c :: l, rest1, ?_, ?_, ?_⟩
        · rw [split2, if_neg hcd, h1]; rfl
        · rw [e, split2, if_neg hcd, e2, h2]; rfl
        · rcases h3 with h | h
          · exact Or.inl (by rw [h])
          · exact Or.inr (by rw [← h]; rfl)
      | cons f fs =>
        refine ⟨(c :: f) :: fs, x, l, rest1, ?_, ?_, h3⟩
        · rw [split2, if_neg hcd, h1]; rfl
        · rw [e, split2, if_neg hcd, e2, h2]; rfl

/-! ## Hashtag derivation -/

theorem hash_not_mem_of_spaces (w : Str) (hw : ∀ c ∈ w, isJsSpace c = true) : hash ∉ w := by
  intro h
  have := hw hash h
  rw [isJsSpace_hash] at this
  exact Bool.noConfusion this

theorem split1_interleave (items : List (Str × Str)) : ∀ (pre w0 : Str), hash ∉ pre → hash ∉ w0 →
    (∀ item ∈ items, hash ∉ item.1 ∧ hash ∉ item.2) →
    split1 hash (pre ++ interleave w0 items)
      = (pre ++ w0) :: items.map (fun item => item.1 ++ item.2) := by
  induction items with
  | nil =>
    intro pre w0 hpre hw0 _
    simp only [interleave, List.map_nil]
    exact split1_of_not_mem _ _ (by simp [hpre, hw0])
  | cons item items ih =>
    intro pre w0 hpre hw0 hitems
    have hi := hitems item (by simp)
    have e : pre ++ interleave w0 (item :: items)
        = (pre ++ w0) ++ hash :: (item.1 ++ interleave item.2 items) := by
      simp [interleave]
    rw [e, split1_append_sep _ _ _ (by simp [hpre, hw0]),
      ih item.1 item.2 hi.1 hi.2 (fun it hit => hitems it (List.mem_cons_of_mem _ hit))]
    rfl

theorem tagsOf_cons_blank (w : Str) (ps : List Str) (hw : ∀ c ∈ w, isJsSpace c = true) :
    tagsOf (w :: ps) = tagsOf ps := by
  have h : trim w = [] := (trim_eq_nil_iff w).mpr hw
  simp [tagsOf, List.filter_cons, h]

theorem tagsOf_items (items : List (Str × Str))
    (hitems : ∀ item ∈ items, item.1 ≠ [] ∧ edgeFree item.1 = true ∧
      ∀ c ∈ item.2, isJsSpace c = true) :
    tagsOf (items.map (fun item => item.1 ++ item.2))
      = items.map (fun item => hash :: item.1) := by
  induction items with
  | nil => rfl
  | cons item items ih =>
    have hi := hitems item (by simp)
    have ht : trim (item.1 ++ item.2) = item.1 := by
      rw [trim_pad_right _ _ hi.2.2, trim_of_edgeFree _ hi.2.1]
    have ih1 := ih (fun it hit => hitems it (List.mem_cons_of_mem _ hit))
    unfold tagsOf at ih1 ⊢
    simp only [List.map_cons, List.filter_cons, ht]
    have hne : (!(item.1).isEmpty) = true := by
      cases h : item.1 with
      | nil => exact absurd h hi.1
      | cons _ _ => rfl
    rw [if_pos hne, List.map_cons, ht, ih1]

/-- The hashtags of an interleaved paragraph are its tokens, in order, each
prefixed with `#`. -/
theorem hashtags_interleave (w0 : Str) (items : List (Str × Str))
    (hw0 : ∀ c ∈ w0, isJsSpace c = true)
    (hitems : ∀ item ∈ items, item.1 ≠ [] ∧ hash ∉ item.1 ∧ edgeFree item.1 = true ∧
      ∀ c ∈ item.2, isJsSpace c = true) :
    hashtags (interleave w0 items) = items.map (fun item => hash :: item.1) := by
  have hsplit := split1_interleave items [] w0 (by simp) (hash_not_mem_of_spaces w0 hw0)
    (fun item hi => ⟨(hitems item hi).2.1, hash_not_mem_of_spaces _ (hitems item hi).2.2.2⟩)
  simp only [List.nil_append] at hsplit
  rw [hashtags, hsplit, tagsOf_cons_blank _ _ hw0]
  exact tagsOf_items items (fun item hi =>
    ⟨(hitems item hi).1, (hitems item hi).2.2.1, (hitems item hi).2.2.2⟩)

theorem split1_prepend (a : Char) (pre s : Str) (h : a ∉ pre) :
    split1 a (pre ++ s) = prependHead pre (split1 a s) := by
  induction pre with
  | nil =>
    cases hs : split1 a s with
    | nil => exact absurd hs (split1_ne_nil a s)
    | cons p ps => simp [hs, prependHead]
  | cons c rest ih =>
    have hc : c ≠ a := fun e => h (by simp [e])
    have hrest : a ∉ rest := fun e => h (List.mem_cons_of_mem _ e)
    have e : (c :: rest) ++ s = c :: (rest ++ s) := rfl
    rw [e, split1, if_neg hc, ih hrest]
    cases hs : split1 a s with
    | nil => exact absurd hs (split1_ne_nil a s)
    | cons p ps => simp [prependHead, consHead]

theorem consHead_appendLast (c : Char) (post : Str) (ps : List Str) (hps : ps ≠ []) :
    consHead c (appendLast post ps) = appendLast post (consHead c ps) := by
  cases ps with
  | nil => exact absurd rfl hps
  | cons p qs =>
    cases qs with
    | nil => simp [appendLast, consHead]
    | cons q qs => simp [appendLast, consHead]

theorem split1_append (a : Char) (s post : Str) (h : a ∉ post) :
    split1 a (s ++ post) = appendLast post (split1 a s) := by
  induction s with
  | nil => simp [split1, appendLast, split1_of_not_mem a post h]
  | cons c rest ih =>
    have e : (c :: rest) ++ post = c :: (rest ++ post) := rfl
    rw [e, split1, split1, ih]
    split
    · cases hs : split1 a rest with
      | nil => exact absurd hs (split1_ne_nil a rest)
      | cons p ps => simp [appendLast]
    · exact consHead_appendLast c post _ (split1_ne_nil a rest)

theorem tagsOf_cons (p : Str) (ps : List Str) :
    tagsOf (p :: ps)
      = if (trim p).isEmpty = true then tagsOf ps else (hash :: trim p) :: tagsOf ps := by
  unfold tagsOf
  cases h : (trim p).isEmpty <;> simp [List.filter_cons, h]

theorem tagsOf_prependHead (pre : Str) (ps : List Str) (hps : ps ≠ [])
    (hpre : ∀ c ∈ pre, isJsSpace c = true) : tagsOf (prependHead pre ps) = tagsOf ps := by
  cases ps with
  | nil => exact absurd rfl hps
  | cons p ps => rw [prependHead, tagsOf_cons, tagsOf_cons, trim_pad_left _ _ hpre]

theorem tagsOf_appendLast (post : Str) (hpost : ∀ c ∈ post, isJsSpace c = true) :
    ∀ (ps : List Str), ps ≠ [] → tagsOf (appendLast post ps) = tagsOf ps
  | [], h => absurd rfl h
  | [p], _ => by rw [appendLast, tagsOf_cons, tagsOf_cons, trim_pad_right _ _ hpost]
  | p :: q :: ps, _ => by
    have ih := tagsOf_appendLast post hpost (q :: ps) (by simp)
    rw [appendLast, tagsOf_cons, tagsOf_cons p, ih]
    simp

/-- White space around the hashtag paragraph does not change the hashtags. -/
theorem hashtags_pad (a h b : Str) (ha : ∀ c ∈ a, isJsSpace c = true)
    (hb : ∀ c ∈ b, isJsSpace c = true) : hashtags (a ++ (h ++ b)) = hashtags h := by
  have hsb : split1 hash (h ++ b) ≠ [] := split1_ne_nil _ _
  rw [hashtags, hashtags, split1_prepend _ _ _ (hash_not_mem_of_spaces a ha),
    tagsOf_prependHead _ _ hsb ha, split1_append _ _ _ (hash_not_mem_of_spaces b hb),
    tagsOf_appendLast _ hb _ (split1_ne_nil _ _)]

/-- Every derived hashtag is `#` followed by a non-empty fragment without `#`
and without white space at its ends. -/
theorem mem_hashtags_form (h tag : Str) (htag : tag ∈ hashtags h) :
    ∃ frag, tag = hash :: frag ∧ frag ≠ [] ∧ hash ∉ frag ∧ edgeFree frag = true := by
  simp only [hashtags, tagsOf, List.mem_map, List.mem_filter] at htag
  obtain ⟨piece, ⟨hmem, hne⟩, rfl⟩ := htag
  refine ⟨trim piece, rfl, ?_, ?_, edgeFree_trim piece⟩
  · intro hnil
    rw [hnil] at hne
    exact Bool.noConfusion hne
  · intro hin
    exact not_mem_of_mem_split1 hash h piece hmem (mem_trim hin)

/-! ## Parsing and the handler -/

theorem parseResponse_of_paragraphs (text c h p : Str) (rest : List Str)
    (hpar : paragraphs text = c :: h :: p :: rest) :
    parseResponse text = .ok ⟨trim c, hashtags h, trim p⟩ := by
  simp [parseResponse, hpar]

theorem parseResponse_short (text : Str) (hlen : (paragraphs text).length < 3) :
    parseResponse text = .error .typeError := by
  unfold parseResponse
  cases hpar : paragraphs text with
  | nil => rfl
  | cons c t1 =>
    cases t1 with
    | nil => rfl
    | cons h t2 =>
      cases t2 with
      | nil => rfl
      | cons p rest =>
        rw [hpar] at hlen
        simp only [List.length_cons] at hlen
        omega

theorem parseResponse_ok_inv (text : Str) (r : ContentResult)
    (hok : parseResponse text = .ok r) :
    ∃ c h p rest, paragraphs text = c :: h :: p :: rest ∧
      r = ⟨trim c, hashtags h, trim p⟩ := by
  cases hpar : paragraphs text with
  | nil =>
    rw [parseResponse_short text (by simp [hpar])] at hok
    exact Except.noConfusion hok
  | cons c t1 =>
    cases t1 with
    | nil =>
      rw [parseResponse_short text (by simp [hpar])] at hok
      exact Except.noConfusion hok
    | cons h t2 =>
      cases t2 with
      | nil =>
        rw [parseResponse_short text (by simp [hpar])] at hok
        exact Except.noConfusion hok
      | cons p rest =>
        rw [parseResponse_of_paragraphs text c h p rest hpar] at hok
        exact ⟨c, h, p, rest, rfl, (Except.ok.inj hok).symm⟩

theorem generateContent_of_returns (provider : Provider) (body : RequestBody)
    (userPrompt text : Str) (hprompt : prompt body = .ok userPrompt)
    (htext : responseText (provider (chatRequest userPrompt)) = .ok text) :
    generateContent provider (some body)
      = respond [chatRequest userPrompt] (parseResponse text) := by
  simp only [generateContent, hprompt, htext]
  rfl

theorem response_of_returns_ok (provider : Provider) (body : RequestBody) (text : Str)
    (r : ContentResult) (hret : Returns provider body text)
    (hparse : parseResponse text = .ok r) :
    (generateContent provider (some body)).response = ⟨200, .content r⟩ := by
  obtain ⟨userPrompt, hprompt, htext⟩ := hret
  rw [generateContent_of_returns provider body userPrompt text hprompt htext, hparse]
  rfl

theorem response_of_returns_error (provider : Provider) (body : RequestBody) (text : Str)
    (e : JsError) (hret : Returns provider body text)
    (hparse : parseResponse text = .error e) :
    (generateContent provider (some body)).response = ⟨500, .error failureMessage⟩ := by
  obtain ⟨userPrompt, hprompt, htext⟩ := hret
  rw [generateContent_of_returns provider body userPrompt text hprompt htext, hparse]
  rfl

/-- A success response carries a result parsed from some provider text. -/
theorem success_inv (provider : Provider) (body : Option RequestBody) (r : ContentResult)
    (h : (generateContent provider body).response = ⟨200, .content r⟩) :
    ∃ text, parseResponse text = .ok r := by
  cases body with
  | none => simp [generateContent, respond] at h
  | some fields =>
    unfold generateContent at h
    cases hprompt : prompt fields with
    | error e => simp [hprompt, respond] at h
    | ok userPrompt =>
      simp only [hprompt] at h
      cases htext : responseText (provider (chatRequest userPrompt)) with
      | error e =>
        rw [htext] at h
        simp [bind, Except.bind, respond] at h
      | ok text =>
        rw [htext] at h
        cases hparse : parseResponse text with
        | error e =>
          simp [bind, Except.bind, hparse, respond] at h
        | ok r1 =>
          simp [bind, Except.bind, hparse, respond] at h
          exact ⟨text, by rw [hparse, h]⟩

theorem respond_calls (calls : List ChatRequest) (outcome : Except JsError ContentResult) :
    (respond calls outcome).calls = calls := by
  cases outcome <;> rfl

/-- Once the prompt is built the provider is called exactly once, with it. -/
theorem calls_of_prompt (provider : Provider) (body : RequestBody) (userPrompt : Str)
    (hprompt : prompt body = .ok userPrompt) :
    (generateContent provider (some body)).calls = [chatRequest userPrompt] := by
  simp only [generateContent, hprompt]
  exact respond_calls _ _

theorem getLast?_ne_lf_of_edgeFree (s : Str) (h : edgeFree s = true) :
    s.getLast? ≠ some lf := by
  intro hl
  unfold edgeFree at h
  rw [hl] at h
  simp [isJsSpace_lf] at h

theorem head?_ne_lf_of_edgeFree (s : Str) (h : edgeFree s = true) :
    s.head? ≠ some lf := by
  intro hl
  unfold edgeFree at h
  rw [hl] at h
  simp [isJsSpace_lf] at h

/-! ## The formatted hashtag paragraph -/

theorem joinTags_eq_interleave : ∀ (ts : List Str), joinTags ts = interleave [] (spaced ts)
  | [] => rfl
  | [t] => by simp [joinTags, spaced, interleave]
  | t :: u :: ts => by
    have ih := joinTags_eq_interleave (u :: ts)
    have e : interleave [space] (spaced (u :: ts)) = space :: interleave [] (spaced (u :: ts)) := by
      cases ts <;> simp [spaced, interleave]
    simp only [joinTags, spaced, interleave, ih, e, List.nil_append]
    rfl

theorem spaced_fst : ∀ (ts : List Str), (spaced ts).map (fun item => hash :: item.1)
    = ts.map (fun t => hash :: t)
  | [] => rfl
  | [t] => rfl
  | t :: u :: ts => by
    have ih := spaced_fst (u :: ts)
    simp only [spaced, List.map_cons] at ih ⊢
    rw [ih]

theorem spaced_mem : ∀ (ts : List Str) (item : Str × Str), item ∈ spaced ts →
    item.1 ∈ ts ∧ ∀ c ∈ item.2, isJsSpace c = true
  | [], item, h => by simp [spaced] at h
  | [t], item, h => by
    simp only [spaced, List.mem_singleton] at h
    subst h
    simp
  | t :: u :: ts, item, h => by
    simp only [spaced, List.mem_cons] at h
    rcases h with h | h
    · subst h
      simp [isJsSpace_space]
    · have ih := spaced_mem (u :: ts) item (by simpa [spaced] using h)
      exact ⟨List.mem_cons_of_mem _ ih.1, ih.2⟩

/-- The hashtags of the formatted paragraph `"#t1 #t2 ... #tn"` are the tokens,
each prefixed with `#`. -/
theorem hashtags_joinTags (ts : List Str)
    (hts : ∀ t ∈ ts, t ≠ [] ∧ hash ∉ t ∧ edgeFree t = true) :
    hashtags (joinTags ts) = ts.map (fun t => hash :: t) := by
  rw [joinTags_eq_interleave, hashtags_interleave [] (spaced ts) (by simp), spaced_fst]
  intro item hitem
  have hm := spaced_mem ts item hitem
  have ht := hts item.1 hm.1
  exact ⟨ht.1, ht.2.1, ht.2.2, hm.2⟩

theorem hasBlankLine_cons (c : Char) (t : Str) (hc : c ≠ lf) (ht : hasBlankLine t = false) :
    hasBlankLine (c :: t) = false := by
  have h := hasBlankLine_append [c] t rfl ht (by simp [hc])
  simpa using h

theorem hasBlankLine_joinTags : ∀ (ts : List Str),
    (∀ t ∈ ts, hasBlankLine t = false) → hasBlankLine (joinTags ts) = false
  | [], _ => rfl
  | [t], h => hasBlankLine_cons hash t (by decide) (h t (by simp))
  | t :: u :: ts, h => by
    have ih := hasBlankLine_joinTags (u :: ts) (fun v hv => h v (List.mem_cons_of_mem _ hv))
    have hright : hasBlankLine (space :: joinTags (u :: ts)) = false :=
      hasBlankLine_cons space _ (by decide) ih
    have hleft : hasBlankLine (hash :: t) = false :=
      hasBlankLine_cons hash t (by decide) (h t (by simp))
    have h2 := hasBlankLine_append (hash :: t) (space :: joinTags (u :: ts)) hleft hright
      (by simp only [List.head?_cons, not_and]; intro _; decide)
    simpa [joinTags] using h2

theorem getLast?_joinTags : ∀ (ts : List Str),
    (∀ t ∈ ts, t ≠ [] ∧ edgeFree t = true) → (joinTags ts).getLast? ≠ some lf
  | [], _ => by simp [joinTags]
  | [t], h => by
    have ht := h t (by simp)
    have e : joinTags [t] = [hash] ++ t := rfl
    rw [e]
    exact getLast?_append_ne _ _ (by simp only [List.getLast?_singleton]; decide)
      (getLast?_ne_lf_of_edgeFree t ht.2)
  | t :: u :: ts, h => by
    have ih := getLast?_joinTags (u :: ts) (fun v hv => h v (List.mem_cons_of_mem _ hv))
    have e : joinTags (t :: u :: ts) = (hash :: t ++ [space]) ++ joinTags (u :: ts) := by
      simp [joinTags]
    rw [e]
    refine getLast?_append_ne _ _ ?_ ih
    have e2 : hash :: t ++ [space] = (hash :: t) ++ [space] := rfl
    rw [e2, List.getLast?_concat]
    decide

/-- The paragraphs of a formatted response are its three parts. -/
theorem paragraphs_formatted (c h p : Str) (hc : hasBlankLine c = false)
    (hcl : c.getLast? ≠ some lf) (hh : hasBlankLine h = false) (hhl : h.getLast? ≠ some lf)
    (hp : hasBlankLine p = false) :
    paragraphs (c ++ lf :: lf :: (h ++ lf :: lf :: p)) = [c, h, p] := by
  unfold paragraphs
  rw [split2_first c _ hc hcl, split2_first h _ hh hhl, split2_single p hp]

/-! ## Padding with spaces -/

theorem isJsSpace_of_spaces (a : Str) (ha : ∀ ch ∈ a, ch = space) :
    ∀ ch ∈ a, isJsSpace ch = true := by
  intro ch hch
  rw [ha ch hch]
  exact isJsSpace_space

theorem lf_not_mem_of_spaces (a : Str) (ha : ∀ ch ∈ a, ch = space) : lf ∉ a := by
  intro h
  have := ha lf h
  revert this
  decide

/-- A paragraph padded with spaces still has no blank line and still does not
end in a line feed. -/
theorem padded_paragraph (a x b : Str) (ha : ∀ ch ∈ a, ch = space)
    (hb : ∀ ch ∈ b, ch = space) (hx : hasBlankLine x = false)
    (hxl : x.getLast? ≠ some lf) :
    hasBlankLine (a ++ (x ++ b)) = false ∧ (a ++ (x ++ b)).getLast? ≠ some lf := by
  have hla : lf ∉ a := lf_not_mem_of_spaces a ha
  have hlb : lf ∉ b := lf_not_mem_of_spaces b hb
  have hal : a.getLast? ≠ some lf := fun h => hla (List.mem_of_getLast?_eq_some h)
  have hbl : b.getLast? ≠ some lf := fun h => hlb (List.mem_of_getLast?_eq_some h)
  have hxb : hasBlankLine (x ++ b) = false :=
    hasBlankLine_append x b hx (hasBlankLine_of_not_mem b hlb) (fun h => hxl h.1)
  exact ⟨hasBlankLine_append a (x ++ b) (hasBlankLine_of_not_mem a hla) hxb (fun h => hal h.1),
    getLast?_append_ne _ _ hal (getLast?_append_ne _ _ hxl hbl)⟩

/-! ## The program of events and its summary -/

/-- Running the handler records the calls, the log line and the one response
that `generateContent` gives, in this order, and lets no fault escape. -/
theorem exec_handler (provider : Provider) (body : Option RequestBody) :
    (handler body).exec provider
      = ⟨(generateContent provider body).calls.map Event.called ++
          ((generateContent provider body).logged.toList.map Event.logged ++
            [Event.sent (generateContent provider body).response]), none⟩ := by
  cases body with
  | none => rfl
  | some fields =>
    cases hprompt : prompt fields with
    | error e =>
      simp only [handler, tryBlock, generateContent, hprompt]
      rfl
    | ok userPrompt =>
      cases htext : responseText (provider (chatRequest userPrompt)) with
      | error e =>
        simp only [handler, tryBlock, generateContent, hprompt, Prog.tryCatch, Prog.exec, htext]
        rfl
      | ok text =>
        rw [generateContent_of_returns provider fields userPrompt text hprompt htext]
        cases hparse : parseResponse text with
        | error e =>
          simp only [handler, tryBlock, hprompt, Prog.tryCatch, Prog.exec, htext, bind,
            Except.bind, hparse]
          rfl
        | ok r =>
          simp only [handler, tryBlock, hprompt, Prog.tryCatch, Prog.exec, htext, bind,
            Except.bind, hparse]
          rfl

theorem calls_endpoint (provider : Provider) (body : Option RequestBody) :
    (endpoint provider (.parsed body)).calls = (generateContent provider body).calls := by
  simp only [endpoint, exec_handler, Trace.calls]
  cases (generateContent provider body).logged <;>
    simp [List.filterMap_append, List.filterMap_map, Function.comp_def]

theorem responses_endpoint (provider : Provider) (body : Option RequestBody) :
    (endpoint provider (.parsed body)).responses = [(generateContent provider body).response] := by
  simp only [endpoint, exec_handler, Trace.responses]
  cases (generateContent provider body).logged <;>
    simp [List.filterMap_append, List.filterMap_map, Function.comp_def]

theorem escaped_endpoint (provider : Provider) (body : Option RequestBody) :
    (endpoint provider (.parsed body)).escaped = none := by
  simp only [endpoint, exec_handler]

theorem prompt_optional (brandName brandDescription platform contentType tone : Option Str) :
    prompt ⟨optionalField brandName, optionalField brandDescription, optionalField platform,
        optionalField contentType, optionalField tone⟩
      = .ok (promptText (contentType.getD "undefined".toList)
          (brandName.getD "undefined".toList) (brandDescription.getD "undefined".toList)
          (platform.getD "undefined".toList) (tone.getD "undefined".toList)) := by
  cases brandName <;> cases brandDescription <;> cases platform <;> cases contentType <;>
    cases tone <;> rfl

/-- A failure response comes from a rejected call or from a response that does
not parse, once the prompt is built. -/
theorem failure_inv (provider : Provider) (body : RequestBody) (userPrompt : Str)
    (hprompt : prompt body = .ok userPrompt)
    (hfail : (generateContent provider (some body)).response = ⟨500, .error failureMessage⟩) :
    (∃ e, responseText (provider (chatRequest userPrompt)) = .error e) ∨
    ∃ text e, responseText (provider (chatRequest userPrompt)) = .ok text ∧
      parseResponse text = .error e := by
  cases htext : responseText (provider (chatRequest userPrompt)) with
  | error e => exact Or.inl ⟨e, rfl⟩
  | ok text =>
    right
    rw [generateContent_of_returns provider body userPrompt text hprompt htext] at hfail
    cases hparse : parseResponse text with
    | error e => exact ⟨text, e, rfl, hparse⟩
    | ok r =>
      rw [hparse] at hfail
      simp [respond] at hfail

/-! ## Properties of the endpoint -/

/-- C1: format-then-parse round trip.  When the provider returns the text
`c ++ "\n\n" ++ "#t1 #t2 ... #tn" ++ "\n\n" ++ p`, where the caption `c` and the
image prompt `p` contain no blank line and have no white space at their ends,
and every token is non-empty, contains no `#`, no blank line and has no white
space at its ends, the handler answers 200 with exactly the caption `c`, the
hashtags `#t1, ..., #tn` and the image prompt `p`. -/
theorem format_parse_roundtrip (provider : Provider) (body : RequestBody) (c p : Str)
    (ts : List Str)
    (hc : hasBlankLine c = false ∧ edgeFree c = true)
    (hp : hasBlankLine p = false ∧ edgeFree p = true)
    (hts : ∀ t ∈ ts, t ≠ [] ∧ hash ∉ t ∧ hasBlankLine t = false ∧ edgeFree t = true)
    (hret : Returns provider body (c ++ lf :: lf :: (joinTags ts ++ lf :: lf :: p))) :
    (generateContent provider (some body)).response
      = ⟨200, .content ⟨c, ts.map (fun t => hash :: t), p⟩⟩ := by
  have hpar := paragraphs_formatted c (joinTags ts) p hc.1
    (getLast?_ne_lf_of_edgeFree c hc.2)
    (hasBlankLine_joinTags ts (fun t ht => (hts t ht).2.2.1))
    (getLast?_joinTags ts (fun t ht => ⟨(hts t ht).1, (hts t ht).2.2.2⟩)) hp.1
  have hparse := parseResponse_of_paragraphs _ c (joinTags ts) p [] hpar
  rw [trim_of_edgeFree c hc.2, trim_of_edgeFree p hp.2,
    hashtags_joinTags ts (fun t ht => ⟨(hts t ht).1, (hts t ht).2.1, (hts t ht).2.2.2⟩)]
    at hparse
  exact response_of_returns_ok provider body _ _ hret hparse

/-- The round trip of C1 at the response
`"Hello world!\n\n#fun #brand #new\n\nA vibrant photo of a logo"`. -/
theorem format_parse_roundtrip_witness :
    (generateContent
        (answering "Hello world!\n\n#fun #brand #new\n\nA vibrant photo of a logo".toList)
        (some (textBody "Acme".toList "Bakery".toList "Instagram".toList "post".toList
          "playful".toList))).response
      = ⟨200, .content ⟨"Hello world!".toList,
          ["#fun".toList, "#brand".toList, "#new".toList],
          "A vibrant photo of a logo".toList⟩⟩ :=
  format_parse_roundtrip
    (answering "Hello world!\n\n#fun #brand #new\n\nA vibrant photo of a logo".toList)
    (textBody "Acme".toList "Bakery".toList "Instagram".toList "post".toList "playful".toList)
    "Hello world!".toList "A vibrant photo of a logo".toList
    ["fun".toList, "brand".toList, "new".toList]
    (by decide) (by decide) (by decide) ⟨_, rfl, rfl⟩

/-- C2: missing paragraphs.  When the provider returns a text that splits on
the blank line into fewer than three paragraphs, the handler answers 500 with
the body `error: Failed to generate content`, never a success response. -/
theorem missing_paragraph_fails (provider : Provider) (body : RequestBody) (text : Str)
    (hret : Returns provider body text) (hlen : (paragraphs text).length < 3) :
    (generateContent provider (some body)).response = ⟨500, .error failureMessage⟩ :=
  response_of_returns_error provider body text _ hret (parseResponse_short text hlen)

/-- The failure of C2 at a response of two paragraphs. -/
theorem missing_paragraph_fails_witness :
    (paragraphs "Hello world!\n\n#fun #brand".toList).length < 3 ∧
    (generateContent (answering "Hello world!\n\n#fun #brand".toList)
        (some (textBody "Acme".toList "Bakery".toList "Instagram".toList "post".toList
          "playful".toList))).response
      = ⟨500, .error failureMessage⟩ :=
  ⟨by decide, missing_paragraph_fails (answering "Hello world!\n\n#fun #brand".toList)
    (textBody "Acme".toList "Bakery".toList "Instagram".toList "post".toList "playful".toList)
    "Hello world!\n\n#fun #brand".toList ⟨_, rfl, rfl⟩ (by decide)⟩

/-- C3, as stated, fails: the response `"\n\n\n\n"` has three paragraphs, each
empty after trimming, and the handler answers 200 with an empty caption, no
hashtags and an empty image prompt. -/
theorem empty_paragraphs_accepted :
    paragraphs "\n\n\n\n".toList = [[], [], []] ∧
    (∀ para ∈ paragraphs "\n\n\n\n".toList, trim para = []) ∧
    (generateContent (answering "\n\n\n\n".toList)
        (some (textBody "Acme".toList "Bakery".toList "Instagram".toList "post".toList
          "playful".toList))).response
      = ⟨200, .content ⟨[], [], []⟩⟩ := by
  decide

/-- C3, amended: when the provider returns a text with at least three
paragraphs, the handler answers 200 with the first paragraph trimmed, the
hashtags of the second and the third paragraph trimmed, also when a paragraph
is empty after trimming: a second paragraph of white space only gives no
hashtags, and no failure is signalled. -/
theorem three_paragraphs_succeed (provider : Provider) (body : RequestBody)
    (text c h p : Str) (rest : List Str) (hret : Returns provider body text)
    (hpar : paragraphs text = c :: h :: p :: rest) :
    (generateContent provider (some body)).response
      = ⟨200, .content ⟨trim c, hashtags h, trim p⟩⟩ ∧
    (trim h = [] → hashtags h = []) := by
  refine ⟨response_of_returns_ok provider body text _ hret
    (parseResponse_of_paragraphs text c h p rest hpar), ?_⟩
  intro hnil
  have hsp := (trim_eq_nil_iff h).mp hnil
  rw [hashtags, split1_of_not_mem hash h (hash_not_mem_of_spaces h hsp), tagsOf_cons, hnil]
  rfl

/-- The success of amended C3 at the response `"Hi\n\n   \n\nA photo"`, whose
second paragraph is white space only. -/
theorem three_paragraphs_succeed_witness :
    (generateContent (answering "Hi\n\n   \n\nA photo".toList)
        (some (textBody "Acme".toList "Bakery".toList "Instagram".toList "post".toList
          "playful".toList))).response
      = ⟨200, .content ⟨trim "Hi".toList, hashtags "   ".toList, trim "A photo".toList⟩⟩ ∧
    (trim "   ".toList = [] → hashtags "   ".toList = []) :=
  three_paragraphs_succeed (answering "Hi\n\n   \n\nA photo".toList)
    (textBody "Acme".toList "Bakery".toList "Instagram".toList "post".toList "playful".toList)
    "Hi\n\n   \n\nA photo".toList "Hi".toList "   ".toList "A photo".toList []
    ⟨_, rfl, rfl⟩ (by decide)

/-- C4, as stated, fails: for a request body without `brandName` the handler
calls the provider once, with the missing field written as `undefined` in the
prompt, and answers 200 when the provider returns three paragraphs. -/
theorem missing_brandName_reaches_provider :
    (generateContent
        (answering "Hello world!\n\n#fun #brand #new\n\nA vibrant photo of a logo".toList)
        (some ⟨.undefined, .str "Bakery".toList, .str "Instagram".toList, .str "post".toList,
          .str "playful".toList⟩)).calls
      = [chatRequest (promptText "post".toList "undefined".toList "Bakery".toList
          "Instagram".toList "playful".toList)] ∧
    (generateContent
        (answering "Hello world!\n\n#fun #brand #new\n\nA vibrant photo of a logo".toList)
        (some ⟨.undefined, .str "Bakery".toList, .str "Instagram".toList, .str "post".toList,
          .str "playful".toList⟩)).response.status = 200 :=
  ⟨rfl, rfl⟩

/-- C4, amended: the handler validates nothing.  For every request body whose
five fields are each missing or a string, empty strings included, it calls
`create` exactly once, with a prompt in which a missing field reads
`undefined`; it then answers 200 whenever the call gives a text that parses,
and answers 500 only when the call fails or its text does not parse. -/
theorem no_validation_before_call (provider : Provider)
    (brandName brandDescription platform contentType tone : Option Str) :
    ∃ request : ChatRequest,
      request = chatRequest (promptText (contentType.getD "undefined".toList)
        (brandName.getD "undefined".toList) (brandDescription.getD "undefined".toList)
        (platform.getD "undefined".toList) (tone.getD "undefined".toList)) ∧
      (endpoint provider (.parsed (some ⟨optionalField brandName,
          optionalField brandDescription, optionalField platform, optionalField contentType,
          optionalField tone⟩))).calls = [request] ∧
      (∀ text r, responseText (provider request) = .ok text → parseResponse text = .ok r →
        (endpoint provider (.parsed (some ⟨optionalField brandName,
          optionalField brandDescription, optionalField platform, optionalField contentType,
          optionalField tone⟩))).responses = [⟨200, .content r⟩]) ∧
      ((endpoint provider (.parsed (some ⟨optionalField brandName,
          optionalField brandDescription, optionalField platform, optionalField contentType,
          optionalField tone⟩))).responses = [⟨500, .error failureMessage⟩] →
        (∃ e, responseText (provider request) = .error e) ∨
        ∃ text e, responseText (provider request) = .ok text ∧
          parseResponse text = .error e) := by
  have hprompt := prompt_optional brandName brandDescription platform contentType tone
  refine ⟨_, rfl, ?_, ?_, ?_⟩
  · rw [calls_endpoint]
    exact calls_of_prompt provider _ _ hprompt
  · intro text r htext hparse
    rw [responses_endpoint,
      response_of_returns_ok provider _ text r ⟨_, hprompt, htext⟩ hparse]
  · intro hfail
    rw [responses_endpoint] at hfail
    exact failure_inv provider _ _ hprompt (List.cons.inj hfail).1

/-- The behaviour of amended C4 at a request without `brandName` and with an
empty `tone`. -/
theorem no_validation_before_call_witness :
    ∃ request : ChatRequest,
      request = chatRequest (promptText "post".toList "undefined".toList "Bakery".toList
        "Instagram".toList []) ∧
      (endpoint (answering "Hi\n\n#a #b\n\nA photo".toList)
        (.parsed (some ⟨.undefined, .str "Bakery".toList, .str "Instagram".toList,
          .str "post".toList, .str []⟩))).calls = [request] ∧
      (∀ text r, responseText (answering "Hi\n\n#a #b\n\nA photo".toList request) = .ok text →
        parseResponse text = .ok r →
        (endpoint (answering "Hi\n\n#a #b\n\nA photo".toList)
          (.parsed (some ⟨.undefined, .str "Bakery".toList, .str "Instagram".toList,
            .str "post".toList, .str []⟩))).responses = [⟨200, .content r⟩]) ∧
      ((endpoint (answering "Hi\n\n#a #b\n\nA photo".toList)
          (.parsed (some ⟨.undefined, .str "Bakery".toList, .str "Instagram".toList,
            .str "post".toList, .str []⟩))).responses = [⟨500, .error failureMessage⟩] →
        (∃ e, responseText (answering "Hi\n\n#a #b\n\nA photo".toList request) = .error e) ∨
        ∃ text e, responseText (answering "Hi\n\n#a #b\n\nA photo".toList request) = .ok text ∧
          parseResponse text = .error e) :=
  no_validation_before_call (answering "Hi\n\n#a #b\n\nA photo".toList)
    none (some "Bakery".toList) (some "Instagram".toList) (some "post".toList) (some [])

/-- C5, as stated, fails: a request whose body is not valid JSON never reaches
the handler; the handler sends no response for it, neither the 200 nor the
500, and Express answers 400. -/
theorem malformed_body_refused :
    (endpoint (answering "Hi\n\n#a #b\n\nA photo".toList) .malformed).events = [.refused 400] ∧
    (endpoint (answering "Hi\n\n#a #b\n\nA photo".toList) .malformed).responses = [] ∧
    ¬ ((∃ r : ContentResult,
          (endpoint (answering "Hi\n\n#a #b\n\nA photo".toList) .malformed).responses
            = [⟨200, .content r⟩]) ∨
        (endpoint (answering "Hi\n\n#a #b\n\nA photo".toList) .malformed).responses
          = [⟨500, .error failureMessage⟩]) := by
  refine ⟨rfl, rfl, ?_⟩
  rintro (⟨r, h⟩ | h) <;> exact List.noConfusion h

/-- C5, amended: two outcomes for every request that reaches the handler.  For
every parsed request body and every provider the handler sends exactly one
response, either 200 with a content result carrying caption, hashtags and
image prompt, or 500 with exactly the body `error: Failed to generate content`
whatever the fault was, and no fault escapes it; a body that is not valid JSON
is answered 400 by Express without the handler. -/
theorem two_outcomes (provider : Provider) (body : Option RequestBody) :
    (endpoint provider (.parsed body)).escaped = none ∧
    ((∃ r : ContentResult,
        (endpoint provider (.parsed body)).responses = [⟨200, .content r⟩]) ∨
      (endpoint provider (.parsed body)).responses = [⟨500, .error failureMessage⟩]) ∧
    (endpoint provider .malformed).events = [.refused 400] := by
  refine ⟨escaped_endpoint provider body, ?_, rfl⟩
  rw [responses_endpoint]
  cases body with
  | none => exact Or.inr rfl
  | some fields =>
    cases hprompt : prompt fields with
    | error e =>
      right
      simp only [generateContent, hprompt]
      rfl
    | ok userPrompt =>
      cases htext : responseText (provider (chatRequest userPrompt)) with
      | error e =>
        right
        simp only [generateContent, hprompt, htext]
        rfl
      | ok text =>
        rw [generateContent_of_returns provider fields userPrompt text hprompt htext]
        cases parseResponse text with
        | error e => exact Or.inr rfl
        | ok r => exact Or.inl ⟨r, rfl⟩

/-- C6: hashtag shape.  On every success response, every element of the
hashtags is `#` followed by a non-empty fragment that contains no `#` and has
no white space at its ends. -/
theorem hashtag_shape (provider : Provider) (body : Option RequestBody) (r : ContentResult)
    (hok : (generateContent provider body).response = ⟨200, .content r⟩) :
    ∀ tag ∈ r.hashtags,
      ∃ frag, tag = hash :: frag ∧ frag ≠ [] ∧ hash ∉ frag ∧ edgeFree frag = true := by
  obtain ⟨text, hparse⟩ := success_inv provider body r hok
  obtain ⟨c, h, p, rest, _, hr⟩ := parseResponse_ok_inv text r hparse
  intro tag htag
  rw [hr] at htag
  exact mem_hashtags_form h tag htag

/-- The shape of C6 on the hashtags of the response
`"Hi\n\n # one ##two# \n\nA photo"`. -/
theorem hashtag_shape_witness :
    (generateContent (answering "Hi\n\n # one ##two# \n\nA photo".toList)
        (some (textBody "Acme".toList "Bakery".toList "Instagram".toList "post".toList
          "playful".toList))).response
      = ⟨200, .content ⟨"Hi".toList, ["#one".toList, "#two".toList], "A photo".toList⟩⟩ ∧
    ∀ tag ∈ ["#one".toList, "#two".toList],
      ∃ frag, tag = hash :: frag ∧ frag ≠ [] ∧ hash ∉ frag ∧ edgeFree frag = true :=
  ⟨rfl, hashtag_shape (answering "Hi\n\n # one ##two# \n\nA photo".toList)
    (some (textBody "Acme".toList "Bakery".toList "Instagram".toList "post".toList
      "playful".toList))
    ⟨"Hi".toList, ["#one".toList, "#two".toList], "A photo".toList⟩ rfl⟩

/-- C7: hashtag order and multiplicity.  For tokens that are non-empty, contain
no `#` and have no white space at their ends, separated by white space only,
the hashtags of `w0 ++ "#t1" ++ w1 ++ ... ++ "#tn" ++ wn` are exactly
`#t1, ..., #tn`: same length, same order, repeats kept. -/
theorem hashtags_order_multiplicity (w0 : Str) (items : List (Str × Str))
    (hw0 : ∀ c ∈ w0, isJsSpace c = true)
    (hitems : ∀ item ∈ items, item.1 ≠ [] ∧ hash ∉ item.1 ∧ edgeFree item.1 = true ∧
      ∀ c ∈ item.2, isJsSpace c = true) :
    hashtags (interleave w0 items) = items.map (fun item => hash :: item.1) :=
  hashtags_interleave w0 items hw0 hitems

/-- The derivation of C7 at the paragraph `"#one#two #three"`. -/
theorem hashtags_order_multiplicity_witness :
    hashtags "#one#two #three".toList
      = ["#one".toList, "#two".toList, "#three".toList] :=
  hashtags_order_multiplicity []
    [("one".toList, []), ("two".toList, " ".toList), ("three".toList, [])]
    (by decide) (by decide)

/-- C9, as stated, fails: the handler calls `create` once, but a client that
repeats a rejected request twice sends three requests to the provider while
the endpoint serves one request. -/
theorem client_retries_reach_provider :
    (endpoint (fun _ => .rejects "503 Service Unavailable".toList)
        (.parsed (some (textBody "Acme".toList "Bakery".toList "Instagram".toList
          "post".toList "playful".toList)))).calls.length = 1 ∧
    requestsSent ⟨fun _ => 3, fun _ => .rejects "503 Service Unavailable".toList⟩
        (.parsed (some (textBody "Acme".toList "Bakery".toList "Instagram".toList
          "post".toList "playful".toList))) = 3 ∧
    requestsSent ⟨fun _ => 3, fun _ => .rejects "503 Service Unavailable".toList⟩
        (.parsed (some (textBody "Acme".toList "Bakery".toList "Instagram".toList
          "post".toList "playful".toList))) ≠ 1 := by
  decide

/-- C9, amended: single call of `create`.  For every request whose five fields
are strings and every client, the handler calls `create` exactly once, whether
the call succeeds or fails, with the fixed system message followed by a user
message carrying the prompt, and the prompt contains each of the five values
as a substring; the requests sent to the provider are those the client sends
for that one call. -/
theorem single_create_call (client : Client)
    (brandName brandDescription platform contentType tone : Str) :
    ∃ userPrompt : Str,
      (endpoint client.settle
          (.parsed (some (textBody brandName brandDescription platform contentType tone)))).calls
        = [⟨[⟨"system".toList, systemContent⟩, ⟨"user".toList, userPrompt⟩],
            "gpt-4-turbo-preview".toList⟩] ∧
      requestsSent client
          (.parsed (some (textBody brandName brandDescription platform contentType tone)))
        = client.requests ⟨[⟨"system".toList, systemContent⟩, ⟨"user".toList, userPrompt⟩],
            "gpt-4-turbo-preview".toList⟩ ∧
      contentType <:+: userPrompt ∧ brandName <:+: userPrompt ∧
      brandDescription <:+: userPrompt ∧ platform <:+: userPrompt ∧
      tone <:+: userPrompt := by
  have hcalls : (endpoint client.settle
      (.parsed (some (textBody brandName brandDescription platform contentType tone)))).calls
      = [chatRequest (promptText contentType brandName brandDescription platform tone)] := by
    rw [calls_endpoint]
    exact calls_of_prompt client.settle _ _ rfl
  refine ⟨promptText contentType brandName brandDescription platform tone,
    hcalls, ?_, ?_, ?_, ?_, ?_, ?_⟩
  · rw [requestsSent, hcalls]
    simp [chatRequest]
  · exact ⟨"Create a ".toList, _, by simp only [promptText, List.append_assoc]; rfl⟩
  · exact ⟨"Create a ".toList ++ contentType ++ " for ".toList, _,
      by simp only [promptText, List.append_assoc]; rfl⟩
  · exact ⟨"Create a ".toList ++ contentType ++ " for ".toList ++ brandName ++ " (".toList, _,
      by simp only [promptText, List.append_assoc]; rfl⟩
  · exact ⟨"Create a ".toList ++ contentType ++ " for ".toList ++ brandName ++ " (".toList ++
      brandDescription ++ ") for ".toList, _, by simp only [promptText, List.append_assoc]; rfl⟩
  · exact ⟨"Create a ".toList ++ contentType ++ " for ".toList ++ brandName ++ " (".toList ++
      brandDescription ++ ") for ".toList ++ platform ++ " with a ".toList, _,
      by simp only [promptText, List.append_assoc]; rfl⟩

/-- C8: white-space robustness.  For paragraphs `c`, `h`, `p` that contain no
blank line and neither start nor end with a line feed, and strings `a1 .. a6`
of spaces only, the response text with each paragraph padded by them gives
the same response as the text without the padding, and the caption and image
prompt returned have no white space at their ends. -/
theorem whitespace_robust (provider padded : Provider) (body : RequestBody)
    (c h p a1 a2 a3 a4 a5 a6 : Str)
    (hc : hasBlankLine c = false ∧ c.head? ≠ some lf ∧ c.getLast? ≠ some lf)
    (hh : hasBlankLine h = false ∧ h.head? ≠ some lf ∧ h.getLast? ≠ some lf)
    (hp : hasBlankLine p = false ∧ p.head? ≠ some lf ∧ p.getLast? ≠ some lf)
    (ha : ∀ a ∈ [a1, a2, a3, a4, a5, a6], ∀ ch ∈ a, ch = space)
    (hclean : Returns provider body (c ++ lf :: lf :: (h ++ lf :: lf :: p)))
    (hpadded : Returns padded body
      ((a1 ++ (c ++ a2)) ++ lf :: lf :: ((a3 ++ (h ++ a4)) ++ lf :: lf :: (a5 ++ (p ++ a6))))) :
    (generateContent padded (some body)).response
      = (generateContent provider (some body)).response ∧
    ∃ r : ContentResult,
      (generateContent padded (some body)).response = ⟨200, .content r⟩ ∧
      edgeFree r.caption = true ∧ edgeFree r.imagePrompt = true := by
  have h1 := ha a1 (by simp)
  have h2 := ha a2 (by simp)
  have h3 := ha a3 (by simp)
  have h4 := ha a4 (by simp)
  have h5 := ha a5 (by simp)
  have h6 := ha a6 (by simp)
  have hpc := padded_paragraph a1 c a2 h1 h2 hc.1 hc.2.2
  have hph := padded_paragraph a3 h a4 h3 h4 hh.1 hh.2.2
  have hpp := padded_paragraph a5 p a6 h5 h6 hp.1 hp.2.2
  have hparClean := paragraphs_formatted c h p hc.1 hc.2.2 hh.1 hh.2.2 hp.1
  have hparPadded := paragraphs_formatted (a1 ++ (c ++ a2)) (a3 ++ (h ++ a4))
    (a5 ++ (p ++ a6)) hpc.1 hpc.2 hph.1 hph.2 hpp.1
  have hparseClean := parseResponse_of_paragraphs _ c h p [] hparClean
  have hparsePadded := parseResponse_of_paragraphs _ _ _ _ [] hparPadded
  rw [trim_pad a1 c a2 (isJsSpace_of_spaces a1 h1) (isJsSpace_of_spaces a2 h2),
    trim_pad a5 p a6 (isJsSpace_of_spaces a5 h5) (isJsSpace_of_spaces a6 h6),
    hashtags_pad a3 h a4 (isJsSpace_of_spaces a3 h3) (isJsSpace_of_spaces a4 h4)]
    at hparsePadded
  have e1 := response_of_returns_ok provider body _ _ hclean hparseClean
  have e2 := response_of_returns_ok padded body _ _ hpadded hparsePadded
  exact ⟨by rw [e1, e2], _, e2, edgeFree_trim c, edgeFree_trim p⟩

/-- The robustness of C8 at a response whose three paragraphs are padded with
spaces. -/
theorem whitespace_robust_witness :
    (generateContent
        (answering "  Hello world! \n\n #fun #brand  \n\n   A vibrant photo ".toList)
        (some (textBody "Acme".toList "Bakery".toList "Instagram".toList "post".toList
          "playful".toList))).response
      = (generateContent (answering "Hello world!\n\n#fun #brand\n\nA vibrant photo".toList)
        (some (textBody "Acme".toList "Bakery".toList "Instagram".toList "post".toList
          "playful".toList))).response ∧
    ∃ r : ContentResult,
      (generateContent
        (answering "  Hello world! \n\n #fun #brand  \n\n   A vibrant photo ".toList)
        (some (textBody "Acme".toList "Bakery".toList "Instagram".toList "post".toList
          "playful".toList))).response = ⟨200, .content r⟩ ∧
      edgeFree r.caption = true ∧ edgeFree r.imagePrompt = true :=
  whitespace_robust (answering "Hello world!\n\n#fun #brand\n\nA vibrant photo".toList)
    (answering "  Hello world! \n\n #fun #brand  \n\n   A vibrant photo ".toList)
    (textBody "Acme".toList "Bakery".toList "Instagram".toList "post".toList "playful".toList)
    "Hello world!".toList "#fun #brand".toList "A vibrant photo".toList
    "  ".toList " ".toList " ".toList "  ".toList "   ".toList " ".toList
    (by decide) (by decide) (by decide) (by decide) ⟨_, rfl, rfl⟩ ⟨_, rfl, rfl⟩

/-- C10: paragraphs after the third are ignored.  For every response text `r`
with at least three paragraphs and every string `s`, the handler gives on
`r ++ "\n\n" ++ s` the same success response as on `r`. -/
theorem extra_paragraphs_ignored (provider extended : Provider) (body : RequestBody)
    (r s : Str) (hlen : 3 ≤ (paragraphs r).length)
    (hr : Returns provider body r)
    (hext : Returns extended body (r ++ lf :: lf :: s)) :
    (generateContent extended (some body)).response
      = (generateContent provider (some body)).response ∧
    ∃ res : ContentResult,
      (generateContent extended (some body)).response = ⟨200, .content res⟩ := by
  obtain ⟨front, x, l, rest, hpr, hpe, hl⟩ := split2_extend r s
  have hpr1 : paragraphs r = front ++ [x] := hpr
  have hpe1 : paragraphs (r ++ lf :: lf :: s) = front ++ l :: rest := hpe
  rw [hpr1] at hlen
  have hsame : ∃ res : ContentResult, parseResponse r = .ok res ∧
      parseResponse (r ++ lf :: lf :: s) = .ok res := by
    cases front with
    | nil => simp at hlen
    | cons c t1 =>
      cases t1 with
      | nil => simp at hlen
      | cons h t2 =>
        cases t2 with
        | nil =>
          have htrim : trim l = trim x := by
            rcases hl with e | e
            · rw [e]
            · rw [← e, trim_pad_right l [lf] (by simp [isJsSpace_lf])]
          refine ⟨⟨trim c, hashtags h, trim x⟩,
            parseResponse_of_paragraphs r c h x [] hpr1, ?_⟩
          rw [parseResponse_of_paragraphs _ c h l rest hpe1, htrim]
        | cons f fs =>
          exact ⟨⟨trim c, hashtags h, trim f⟩,
            parseResponse_of_paragraphs r c h f (fs ++ [x]) hpr1,
            parseResponse_of_paragraphs _ c h f (fs ++ l :: rest) hpe1⟩
  obtain ⟨res, hp1, hp2⟩ := hsame
  have e1 := response_of_returns_ok provider body _ _ hr hp1
  have e2 := response_of_returns_ok extended body _ _ hext hp2
  exact ⟨by rw [e1, e2], res, e2⟩

/-- The property of C10 at a response whose third paragraph ends in a line
feed, extended by a fourth paragraph. -/
theorem extra_paragraphs_ignored_witness :
    (generateContent (answering "Hi\n\n#a #b\n\nA photo\n\n\nmore text".toList)
        (some (textBody "Acme".toList "Bakery".toList "Instagram".toList "post".toList
          "playful".toList))).response
      = (generateContent (answering "Hi\n\n#a #b\n\nA photo\n".toList)
        (some (textBody "Acme".toList "Bakery".toList "Instagram".toList "post".toList
          "playful".toList))).response ∧
    ∃ res : ContentResult,
      (generateContent (answering "Hi\n\n#a #b\n\nA photo\n\n\nmore text".toList)
        (some (textBody "Acme".toList "Bakery".toList "Instagram".toList "post".toList
          "playful".toList))).response = ⟨200, .content res⟩ :=
  extra_paragraphs_ignored (answering "Hi\n\n#a #b\n\nA photo\n".toList)
    (answering "Hi\n\n#a #b\n\nA photo\n\n\nmore text".toList)
    (textBody "Acme".toList "Bakery".toList "Instagram".toList "post".toList "playful".toList)
    "Hi\n\n#a #b\n\nA photo\n".toList "more text".toList
    (by decide) ⟨_, rfl, rfl⟩ ⟨_, rfl, rfl⟩

end GenerateContent
